import Mathlib

/-!
# Verification of the APR portability shims

Shallow embedding of two files of the repository:

* `src/i18n/unix/xlate.c`: the codeset converter built over iconv, with its
  single-byte (sbcs) table fast path;
* `src/locks/win32/thread_mutex.c`: the thread mutex built over a Win32
  critical section.

Machine integers are mathematical integers with explicit reduction modulo the
width of the C type.  Memory faults and undefined behaviour are explicit
`Except.error` results.  The iconv engine and the pool allocator are
parameters of the model.
-/

namespace Xlate

/-- One octet of memory, the bit pattern of a C `char`. -/
abbrev Byte := Fin 256

/-- Executions that have no defined result in C. -/
inductive Fault
  | out_of_bounds
  | signed_overflow
  | null_deref
  deriving DecidableEq, Repr

/-- Platform facts that the source takes from headers and from the compiler:
the width of `size_t` (which is `ap_size_t`: the counters are handed to
`iconv` as `size_t *`), the signedness of plain `char`, the values of the
error constants, whether `__MVS__` is defined and the value of `__CODESET__`
when it is, and the numeric value of a character literal.  `int` and
`ap_int32_t` are 32 bits wide. -/
structure Platform where
  size_bits : Nat
  char_signed : Bool
  APR_ENOMEM : Nat
  EINVAL : Nat
  mvs : Bool
  codeset : Option String
  lit : Char → Nat

/-- Value of `APR_SUCCESS`. -/
def APR_SUCCESS : Nat := 0

/-- Value of `(size_t)-1`. -/
def SIZE_MAX (P : Platform) : Nat := 2 ^ P.size_bits - 1

/-- Value of `(iconv_t)-1`, the descriptor that stands for no descriptor. -/
def ICONV_INVALID : Int := -1

/-- Smallest value of `int`. -/
def INT_MIN : Int := -(2 ^ 31)

/-- Conversion of an unsigned value to `int`: reduction modulo `2 ^ 32` into
the range of `int` (the C standard leaves the result for values above
`INT_MAX` to the implementation; this is the two's complement choice of the
usual compilers). -/
def to_int (n : Nat) : Int :=
  if n % 2 ^ 32 < 2 ^ 31 then ((n % 2 ^ 32 : Nat) : Int)
  else ((n % 2 ^ 32 : Nat) : Int) - 2 ^ 32

/-- Compound assignment `x -= c` for `x` of type `ap_size_t` and `c` of type
`int`: `c` is converted to the unsigned type and the difference wraps. -/
def size_sub (P : Platform) (x : Nat) (c : Int) : Nat :=
  (((x : Int) - c) % 2 ^ P.size_bits).toNat

/-- Value of a `char` holding bit pattern `b`, converted to `ap_int32_t`. -/
def char_to_int32 (P : Platform) (b : Byte) : Int :=
  if P.char_signed ∧ 128 ≤ b.val then (b.val : Int) - 256 else (b.val : Int)

/-- Macro `min(x,y)` of the source: `((x) <= (y) ? (x) : (y))`. -/
def min (x y : Nat) : Nat := if x ≤ y then x else y

/-- A region of `size` bytes; `data i` is the byte at offset `i`. -/
structure Buffer where
  size : Nat
  data : Nat → Byte

/-- Store of one byte at offset `i`. -/
def Buffer.write (b : Buffer) (i : Nat) (v : Byte) : Buffer :=
  { b with data := fun j => if j = i then v else b.data j }

/-- Source `struct ap_xlate_t`.  `sbcs_table` is `none` for a null pointer and
otherwise the 256 bytes it points to; `ich` is the iconv descriptor. -/
structure ap_xlate_t where
  pool : Nat
  frompage : Option String
  topage : Option String
  sbcs_table : Option (Fin 256 → Byte)
  ich : Int

/-- What one call of `iconv` leaves behind: its return value (a `size_t`),
`errno`, both counters and the output region. -/
structure IconvResult where
  translated : Nat
  errno : Nat
  inbytes_left : Nat
  outbytes_left : Nat
  outbuf : Buffer

/-- The conversion engine, abstract.  `iconv_open to from` gives a descriptor
(or `ICONV_INVALID`) and `errno`; `iconv` takes descriptor, input region,
input counter, output region, output counter; `iconv_close` takes the
descriptors released so far and the descriptor, and gives its return value
and `errno`. -/
structure Engine where
  iconv_open : String → String → Int × Nat
  iconv : Int → Buffer → Nat → Buffer → Nat → IconvResult
  iconv_close : List Int → Int → Int × Nat

/-- The `while (to_convert)` loop of `ap_xlate_conv_buffer`.  `ip` and `op`
are the offsets reached by the pointers `inbuf` and `outbuf`. -/
def conv_loop (table : Option (Fin 256 → Byte)) (inbuf : Buffer)
    (to_convert : Int) (ip op : Nat) (outbuf : Buffer) : Except Fault Buffer :=
  if to_convert = 0 then Except.ok outbuf
  else
    match table with
    | none => Except.error Fault.null_deref
    | some t =>
      if inbuf.size ≤ ip ∨ outbuf.size ≤ op then Except.error Fault.out_of_bounds
      else if to_convert - 1 < INT_MIN then Except.error Fault.signed_overflow
      else conv_loop table inbuf (to_convert - 1) (ip + 1) (op + 1)
            (outbuf.write op (t (inbuf.data ip)))
termination_by (to_convert - INT_MIN).toNat
decreasing_by
  simp only [INT_MIN] at *
  omega

/-- Result of `ap_xlate_conv_buffer`: the status and the state of the three
things the caller passed by reference. -/
structure ConvResult where
  status : Nat
  inbytes_left : Nat
  outbytes_left : Nat
  outbuf : Buffer

/-- Source `ap_xlate_conv_buffer` (with `HAVE_ICONV`). -/
def ap_xlate_conv_buffer (P : Platform) (E : Engine) (convset : ap_xlate_t)
    (inbuf : Buffer) (inbytes_left : Nat) (outbuf : Buffer) (outbytes_left : Nat) :
    Except Fault ConvResult :=
  if convset.ich ≠ ICONV_INVALID then
    let r := E.iconv convset.ich inbuf inbytes_left outbuf outbytes_left
    if r.translated = SIZE_MAX P then
      Except.ok ⟨r.errno, r.inbytes_left, r.outbytes_left, r.outbuf⟩
    else
      Except.ok ⟨APR_SUCCESS, r.inbytes_left, r.outbytes_left, r.outbuf⟩
  else
    let to_convert := to_int (min inbytes_left outbytes_left)
    let converted := to_convert
    match conv_loop convset.sbcs_table inbuf to_convert 0 0 outbuf with
    | Except.error f => Except.error f
    | Except.ok out =>
      Except.ok ⟨APR_SUCCESS, size_sub P inbytes_left converted,
        size_sub P outbytes_left converted, out⟩

/-- Source `ap_xlate_conv_byte`. -/
def ap_xlate_conv_byte (P : Platform) (convset : ap_xlate_t) (inchar : Fin 256) : Int :=
  match convset.sbcs_table with
  | some t => char_to_int32 P (t inchar)
  | none => -1

/-- Source `get_default_codepage`. -/
def get_default_codepage (P : Platform) : String :=
  if P.mvs then
    match P.codeset with
    | some c => c
    | none => "IBM-1047"
  else if P.lit '\x7d' = 0xD0 then "IBM-1047"
  else if P.lit '\x7b' = 0xFB then "EDF04"
  else if P.lit 'A' = 0xC1 then "EBCDIC"
  else if P.lit 'A' = 0x41 then "ISO8859-1"
  else "unknown"

/-- Functions that can be registered as pool cleanups. -/
inductive CleanupFn
  | ap_xlate_cleanup
  | ap_null_cleanup
  deriving DecidableEq, Repr

/-- One entry of a pool's cleanup registry. -/
structure CleanupEntry where
  data : Nat
  plain_cleanup : CleanupFn
  child_cleanup : CleanupFn
  deriving DecidableEq, Repr

/-- Explicit state: the contexts in pool memory by address, the cleanup
registry of each pool, and the descriptors handed to `iconv_close` so far
(oldest first). -/
structure World where
  heap : Nat → Option ap_xlate_t
  cleanups : Nat → List CleanupEntry
  closed : List Int

/-- Store of a context at an address. -/
def World.store (w : World) (a : Nat) (c : ap_xlate_t) : World :=
  { w with heap := fun b => if b = a then some c else w.heap b }

/-- Modelled from the spec: `ap_register_cleanup` is not part of the sources;
it adds a release callback for `data` to the arena's list, newest first. -/
def ap_register_cleanup (w : World) (pool data : Nat) (plain child : CleanupFn) : World :=
  { w with cleanups := fun p =>
      if p = pool then ⟨data, plain, child⟩ :: w.cleanups p else w.cleanups p }

/-- Removal of the first entry for `(data, fn)` from a registry list. -/
def kill_first (data : Nat) (fn : CleanupFn) : List CleanupEntry → List CleanupEntry
  | [] => []
  | c :: cs =>
    if c.data = data ∧ c.plain_cleanup = fn then cs else c :: kill_first data fn cs

/-- Modelled from the spec: `ap_kill_cleanup` is not part of the sources; it
removes the callback registered for `(data, fn)` from the arena's list and does
nothing when there is none. -/
def ap_kill_cleanup (w : World) (pool data : Nat) (fn : CleanupFn) : World :=
  { w with cleanups := fun p =>
      if p = pool then kill_first data fn (w.cleanups p) else w.cleanups p }

/-- Source `ap_xlate_cleanup` (with `HAVE_ICONV`), on the context at address
`convset`. -/
def ap_xlate_cleanup (E : Engine) (w : World) (convset : Nat) : Except Fault (Nat × World) :=
  match w.heap convset with
  | none => Except.error Fault.null_deref
  | some old =>
    if old.ich ≠ ICONV_INVALID then
      let r := E.iconv_close w.closed old.ich
      let w1 : World := { w with closed := w.closed ++ [old.ich] }
      if r.1 ≠ 0 then Except.ok (r.2, w1) else Except.ok (APR_SUCCESS, w1)
    else Except.ok (APR_SUCCESS, w)

/-- Outcome of the pool allocator for the requests of one `ap_xlate_open`:
the address `ap_pcalloc` returns for the context (`none` is a null pointer),
whether the two `ap_pstrdup` and the `ap_palloc` of the table succeed, and the
bytes that the uninitialised local `outbuf` of `check_sbcs` happens to hold. -/
structure Allocs where
  new : Option Nat
  topage : Bool
  frompage : Bool
  table : Bool
  junk : Nat → Byte

/-- The local array `inbuf` of `check_sbcs` after its `for` loop:
`inbuf[i] = i` for the 256 offsets. -/
def probe_inbuf : Buffer := ⟨256, fun i => Fin.ofNat i⟩

/-- The engine call made by `check_sbcs`. -/
def probe (E : Engine) (A : Allocs) (ich : Int) : IconvResult :=
  E.iconv ich probe_inbuf 256 ⟨256, A.junk⟩ 256

/-- The condition under which `check_sbcs` keeps the table. -/
def sbcs_ok (P : Platform) (r : IconvResult) : Prop :=
  r.translated ≠ SIZE_MAX P ∧ r.inbytes_left = 0 ∧ r.outbytes_left = 0

instance (P : Platform) (r : IconvResult) : Decidable (sbcs_ok P r) := by
  unfold sbcs_ok; infer_instance

/-- Source `check_sbcs`.  Takes and gives the context and the list of released
descriptors.  `memcpy` into a null `ap_palloc` result is a fault. -/
def check_sbcs (P : Platform) (E : Engine) (A : Allocs) (closed : List Int)
    (convset : ap_xlate_t) : Except Fault (ap_xlate_t × List Int) :=
  let r := probe E A convset.ich
  if sbcs_ok P r then
    if A.table then
      Except.ok ({ convset with
                    sbcs_table := some (fun i => r.outbuf.data i.val),
                    ich := ICONV_INVALID },
                 closed ++ [convset.ich])
    else Except.error Fault.null_deref
  else Except.ok (convset, closed)

/-- Source `ap_xlate_open` (with `HAVE_ICONV`, without `TODO`).  The result is
the status, the pointer stored in `*convset` (`none` is `NULL`) and the state.
`block` is the `#ifdef HAVE_ICONV` block: it either returns early or goes on
with the context, the released descriptors and `found`. -/
def ap_xlate_open (P : Platform) (E : Engine) (A : Allocs) (w : World)
    (topage frompage : Option String) (pool : Nat) :
    Except Fault (Nat × Option Nat × World) :=
  let found := false
  let topage := match topage with
    | some t => t
    | none => get_default_codepage P
  let frompage := match frompage with
    | some f => f
    | none => get_default_codepage P
  match A.new with
  | none => Except.ok (P.APR_ENOMEM, none, w)
  | some a =>
    let new : ap_xlate_t :=
      { pool := pool
        topage := if A.topage then some topage else none
        frompage := if A.frompage then some frompage else none
        sbcs_table := none
        ich := 0 }
    if new.topage = none ∨ new.frompage = none then
      Except.ok (P.APR_ENOMEM, none, w.store a new)
    else
      let block : Except Fault ((Nat × Option Nat × World) ⊕ (ap_xlate_t × List Int × Bool)) :=
        if ¬ found then
          let o := E.iconv_open topage frompage
          let new : ap_xlate_t := { new with ich := o.1 }
          if new.ich = ICONV_INVALID then Except.ok (Sum.inl (o.2, none, w.store a new))
          else
            match check_sbcs P E A w.closed new with
            | Except.error f => Except.error f
            | Except.ok (new, closed) => Except.ok (Sum.inr (new, closed, true))
        else Except.ok (Sum.inr (new, w.closed, found))
      match block with
      | Except.error f => Except.error f
      | Except.ok (Sum.inl early) => Except.ok early
      | Except.ok (Sum.inr (new, closed, found)) =>
        let w1 : World := { w.store a new with closed := closed }
        if found then
          Except.ok (APR_SUCCESS, some a,
            ap_register_cleanup w1 pool a CleanupFn.ap_xlate_cleanup CleanupFn.ap_null_cleanup)
        else Except.ok (P.EINVAL, none, w1)

/-- Source `ap_xlate_close`. -/
def ap_xlate_close (E : Engine) (w : World) (convset : Nat) : Except Fault (Nat × World) :=
  match ap_xlate_cleanup E w convset with
  | Except.error f => Except.error f
  | Except.ok (status, w1) =>
    if status = APR_SUCCESS then
      match w1.heap convset with
      | none => Except.error Fault.null_deref
      | some c => Except.ok (status, ap_kill_cleanup w1 c.pool convset CleanupFn.ap_xlate_cleanup)
    else Except.ok (status, w1)

/-- Run of the registered callbacks of a list, in list order. -/
def run_cleanups (E : Engine) : List CleanupEntry → World → Except Fault World
  | [], w => Except.ok w
  | c :: cs, w =>
    match c.plain_cleanup with
    | CleanupFn.ap_null_cleanup => run_cleanups E cs w
    | CleanupFn.ap_xlate_cleanup =>
      match ap_xlate_cleanup E w c.data with
      | Except.error f => Except.error f
      | Except.ok (_, w1) => run_cleanups E cs w1

/-- Modelled from the spec: the arena teardown is not part of the sources; it
invokes the arena's release callbacks, newest first, empties the list and
gives up the arena's memory. -/
def ap_destroy_pool (E : Engine) (w : World) (pool : Nat) : Except Fault World :=
  match run_cleanups E (w.cleanups pool) w with
  | Except.error f => Except.error f
  | Except.ok w1 =>
    Except.ok
      { w1 with
        cleanups := fun p => if p = pool then [] else w1.cleanups p
        heap := fun a =>
          match w1.heap a with
          | some c => if c.pool = pool then none else some c
          | none => none }

/-! ### Concrete platforms, engines and contexts used as test inputs -/

/-- An LP64 Unix platform with signed plain `char` and ASCII literals. -/
def lp64 : Platform :=
  { size_bits := 64, char_signed := true, APR_ENOMEM := 12, EINVAL := 22,
    mvs := false, codeset := none, lit := fun c => c.toNat }

/-- An engine for a single-byte codeset pair that maps every byte to itself:
it converts as many bytes as both counters allow. -/
def copy_engine : Engine :=
  { iconv_open := fun _ _ => (7, 0)
    iconv := fun _ inb il outb ol =>
      { translated := 0, errno := 0
        inbytes_left := il - min il ol
        outbytes_left := ol - min il ol
        outbuf := ⟨outb.size, fun j => if j < min il ol then inb.data j else outb.data j⟩ }
    iconv_close := fun _ _ => (0, 0) }

/-- An engine for a codeset pair that is not single-byte: the probe stops with
an error (`EILSEQ`) at the first byte above 127. -/
def wide_engine : Engine :=
  { iconv_open := fun _ _ => (7, 0)
    iconv := fun _ _ il outb ol =>
      { translated := 2 ^ 64 - 1, errno := 84
        inbytes_left := il - 128
        outbytes_left := ol - 128
        outbuf := outb }
    iconv_close := fun _ _ => (0, 0) }

/-- An allocator outcome in which every request succeeds. -/
def good_allocs : Allocs :=
  { new := some 1, topage := true, frompage := true, table := true, junk := fun _ => 0 }

/-- An allocator outcome in which the context and both names are granted and
the `ap_palloc` of the table returns a null pointer. -/
def starved_allocs : Allocs :=
  { new := some 1, topage := true, frompage := true, table := false, junk := fun _ => 0 }

/-- A state with no context, no registered cleanup and no released descriptor. -/
def empty_world : World :=
  { heap := fun _ => none, cleanups := fun _ => [], closed := [] }

/-- The state in which `ap_xlate_open` with `copy_engine` leaves
`empty_world`. -/
def opened_world : World :=
  match ap_xlate_open lp64 copy_engine good_allocs empty_world (some "X") (some "X") 0 with
  | Except.ok (_, _, w) => w
  | Except.error _ => empty_world

/-- A table-backed context whose table maps every byte to itself. -/
def identity_ctx : ap_xlate_t :=
  { pool := 0, frompage := some "X", topage := some "X",
    sbcs_table := some (fun i => i), ich := ICONV_INVALID }

end Xlate

namespace ThreadMutex

/-- Executions that have no defined result in C. -/
inductive MutexFault
  | null_deref
  deriving DecidableEq, Repr

/-- Status values that `thread_mutex.c` names, and `APR_ENOMEM`. -/
inductive apr_status_t
  | APR_SUCCESS
  | APR_ENOTIMPL
  | APR_EBUSY
  | APR_ENOMEM
  deriving DecidableEq, Repr

/-- State of a Win32 critical section: the owning thread, if any, and how many
times that thread has entered. -/
structure CRITICAL_SECTION where
  owner : Option Nat
  count : Nat
  deriving DecidableEq, Repr

/-- Source `struct apr_thread_mutex_t`: the pool and the critical section. -/
structure apr_thread_mutex_t where
  pool : Nat
  section_ : CRITICAL_SECTION
  deriving DecidableEq, Repr

/-- Functions that can be registered as pool cleanups. -/
inductive PoolCleanupFn
  | thread_mutex_cleanup
  | apr_pool_cleanup_null
  deriving DecidableEq, Repr

/-- One entry of a pool's cleanup registry. -/
structure PoolCleanupEntry where
  data : Nat
  plain_cleanup : PoolCleanupFn
  child_cleanup : PoolCleanupFn
  deriving DecidableEq, Repr

/-- Explicit state: the mutexes in pool memory by address, the cleanup registry
of each pool, and the addresses handed to `InitializeCriticalSection` and to
`DeleteCriticalSection` so far (oldest first). -/
structure MutexWorld where
  heap : Nat → Option apr_thread_mutex_t
  cleanups : Nat → List PoolCleanupEntry
  initialized_cs : List Nat
  deleted_cs : List Nat

/-- The Win32 call `TryEnterCriticalSection` made by thread `tid`: it enters
when the section is free or already owned by `tid`, and otherwise leaves the
section as it is and returns zero. -/
def TryEnterCriticalSection (cs : CRITICAL_SECTION) (tid : Nat) : Bool × CRITICAL_SECTION :=
  match cs.owner with
  | none => (true, ⟨some tid, 1⟩)
  | some o => if o = tid then (true, ⟨some tid, cs.count + 1⟩) else (false, cs)

/-- Modelled from the spec: `apr_pool_cleanup_register` is not part of the
sources; it adds a release callback for `data` to the arena's list, newest
first. -/
def apr_pool_cleanup_register (w : MutexWorld) (pool data : Nat) (plain child : PoolCleanupFn) : MutexWorld :=
  { w with cleanups := fun p =>
      if p = pool then ⟨data, plain, child⟩ :: w.cleanups p else w.cleanups p }

/-- Removal of the first entry for `(data, fn)` from a registry list. -/
def remove_first (data : Nat) (fn : PoolCleanupFn) : List PoolCleanupEntry → List PoolCleanupEntry
  | [] => []
  | c :: cs =>
    if c.data = data ∧ c.plain_cleanup = fn then cs else c :: remove_first data fn cs

/-- Modelled from the spec: `apr_pool_cleanup_kill` is not part of the sources;
it removes the callback registered for `(data, fn)` from the arena's list and
does nothing when there is none. -/
def apr_pool_cleanup_kill (w : MutexWorld) (pool data : Nat) (fn : PoolCleanupFn) : MutexWorld :=
  { w with cleanups := fun p =>
      if p = pool then remove_first data fn (w.cleanups p) else w.cleanups p }

/-- Source `thread_mutex_cleanup`: `DeleteCriticalSection(&lock->section)`. -/
def thread_mutex_cleanup (w : MutexWorld) (data : Nat) : apr_status_t × MutexWorld :=
  (apr_status_t.APR_SUCCESS, { w with deleted_cs := w.deleted_cs ++ [data] })

/-- Call of a registered function on `data`. -/
def run_fn (fn : PoolCleanupFn) (w : MutexWorld) (data : Nat) : apr_status_t × MutexWorld :=
  match fn with
  | PoolCleanupFn.thread_mutex_cleanup => thread_mutex_cleanup w data
  | PoolCleanupFn.apr_pool_cleanup_null => (apr_status_t.APR_SUCCESS, w)

/-- Modelled from the spec: `apr_pool_cleanup_run` is not part of the sources;
it unregisters the given cleanup if it is registered, then runs it. -/
def apr_pool_cleanup_run (w : MutexWorld) (pool data : Nat) (fn : PoolCleanupFn) : apr_status_t × MutexWorld :=
  run_fn fn (apr_pool_cleanup_kill w pool data fn) data

set_option linter.unusedVariables false in
/-- Source `apr_thread_mutex_create`.  `alloc` is what `apr_palloc` returns:
an address, or `none` for a null pointer.  The result is the status, the
pointer stored in `*mutex` and the state. -/
def apr_thread_mutex_create (w : MutexWorld) (flags : Nat) (pool : Nat) (alloc : Option Nat) :
    Except MutexFault (apr_status_t × Nat × MutexWorld) :=
  match alloc with
  | none => Except.error MutexFault.null_deref
  | some m =>
    let w1 : MutexWorld :=
      { w with
        heap := fun a => if a = m then some ⟨pool, ⟨none, 0⟩⟩ else w.heap a
        initialized_cs := w.initialized_cs ++ [m] }
    Except.ok (apr_status_t.APR_SUCCESS, m,
      apr_pool_cleanup_register w1 pool m PoolCleanupFn.thread_mutex_cleanup
        PoolCleanupFn.apr_pool_cleanup_null)

/-- Source `apr_thread_mutex_trylock`, called by thread `tid` with
`apr_os_level = os_level`; `WIN_NT` is the value of `APR_WIN_NT`. -/
def apr_thread_mutex_trylock (WIN_NT os_level : Nat) (w : MutexWorld) (mutex tid : Nat) :
    Except MutexFault (apr_status_t × MutexWorld) :=
  if os_level < WIN_NT then Except.ok (apr_status_t.APR_ENOTIMPL, w)
  else
    match w.heap mutex with
    | none => Except.error MutexFault.null_deref
    | some mx =>
      let r := TryEnterCriticalSection mx.section_ tid
      let w1 : MutexWorld :=
        { w with heap := fun a => if a = mutex then some { mx with section_ := r.2 } else w.heap a }
      if r.1 then Except.ok (apr_status_t.APR_SUCCESS, w1)
      else Except.ok (apr_status_t.APR_EBUSY, w1)

/-- Source `apr_thread_mutex_destroy`. -/
def apr_thread_mutex_destroy (w : MutexWorld) (mutex : Nat) : Except MutexFault (apr_status_t × MutexWorld) :=
  match w.heap mutex with
  | none => Except.error MutexFault.null_deref
  | some mx => Except.ok (apr_pool_cleanup_run w mx.pool mutex PoolCleanupFn.thread_mutex_cleanup)

/-- Run of the registered callbacks of a list, in list order. -/
def run_registered : List PoolCleanupEntry → MutexWorld → MutexWorld
  | [], w => w
  | c :: cs, w => run_registered cs (run_fn c.plain_cleanup w c.data).2

/-- Modelled from the spec: the arena teardown is not part of the sources; it
invokes the arena's release callbacks, newest first, empties the list and
gives up the arena's memory. -/
def apr_pool_destroy (w : MutexWorld) (pool : Nat) : MutexWorld :=
  let w1 := run_registered (w.cleanups pool) w
  { w1 with
    cleanups := fun p => if p = pool then [] else w1.cleanups p
    heap := fun a =>
      match w1.heap a with
      | some mx => if mx.pool = pool then none else some mx
      | none => none }

/-- A call of the mutex interface, as one step of a trace. -/
inductive Call
  | create (flags pool : Nat) (alloc : Option Nat)
  | trylock (WIN_NT os_level mutex tid : Nat)
  | destroy (mutex : Nat)

/-- The state that a call leaves, or the fault it runs into. -/
def Call.run (w : MutexWorld) : Call → Except MutexFault MutexWorld
  | Call.create flags pool alloc =>
    match apr_thread_mutex_create w flags pool alloc with
    | Except.error f => Except.error f
    | Except.ok r => Except.ok r.2.2
  | Call.trylock WIN_NT os_level mutex tid =>
    match apr_thread_mutex_trylock WIN_NT os_level w mutex tid with
    | Except.error f => Except.error f
    | Except.ok r => Except.ok r.2
  | Call.destroy mutex =>
    match apr_thread_mutex_destroy w mutex with
    | Except.error f => Except.error f
    | Except.ok r => Except.ok r.2

/-- The state that a sequence of calls leaves, or the first fault. -/
def run_calls : List Call → MutexWorld → Except MutexFault MutexWorld
  | [], w => Except.ok w
  | c :: cs, w =>
    match c.run w with
    | Except.error f => Except.error f
    | Except.ok w1 => run_calls cs w1

/-- The call is neither a create that gets address `m` nor a destroy of the
mutex at `m`. -/
def Call.spares (m : Nat) : Call → Prop
  | Call.create _ _ alloc => alloc ≠ some m
  | Call.trylock _ _ _ _ => True
  | Call.destroy mutex => mutex ≠ m

/-- The mutex at `m` is in memory, belongs to `pool`, and the registry of
`pool` holds exactly one cleanup for `m`, the one that
`apr_thread_mutex_create` registers. -/
def registered_once (w : MutexWorld) (pool m : Nat) : Prop :=
  (∃ mx, w.heap m = some mx ∧ mx.pool = pool) ∧
  (w.cleanups pool).filter (fun c => decide (c.data = m)) =
    [⟨m, PoolCleanupFn.thread_mutex_cleanup, PoolCleanupFn.apr_pool_cleanup_null⟩]

/-- The registry of `pool` holds no cleanup for `m`. -/
def unregistered (w : MutexWorld) (pool m : Nat) : Prop :=
  ∀ c ∈ w.cleanups pool, c.data ≠ m

/-! ### Concrete states used as test inputs -/

/-- A state whose pool 0 already holds a mutex cleanup for address 1. -/
def stale_world : MutexWorld :=
  { heap := fun _ => none
    cleanups := fun p =>
      if p = 0 then [⟨1, PoolCleanupFn.thread_mutex_cleanup, PoolCleanupFn.apr_pool_cleanup_null⟩] else []
    initialized_cs := []
    deleted_cs := [] }

/-- A state with no mutex, no registered cleanup and no critical section. -/
def fresh_world : MutexWorld :=
  { heap := fun _ => none, cleanups := fun _ => [], initialized_cs := [], deleted_cs := [] }

/-- A state with one mutex at address 1, in pool 0, held by thread 5. -/
def held_world : MutexWorld :=
  { heap := fun a => if a = 1 then some ⟨0, ⟨some 5, 1⟩⟩ else none
    cleanups := fun p =>
      if p = 0 then [⟨1, PoolCleanupFn.thread_mutex_cleanup, PoolCleanupFn.apr_pool_cleanup_null⟩] else []
    initialized_cs := [1]
    deleted_cs := [] }

end ThreadMutex

namespace Xlate

/-! ### The table loop on lengths that fit in `int` -/

/-- The loop started at a count `n` below `2 ^ 31` with `n` bytes available in
both regions returns, and has stored the `n` mapped bytes at offsets
`op .. op + n - 1`, leaving every other byte of the output region alone. -/
theorem conv_loop_count (t : Fin 256 → Byte) (inbuf : Buffer) (n : Nat) :
    ∀ (ip op : Nat) (outbuf : Buffer), n < 2 ^ 31 → ip + n ≤ inbuf.size →
      op + n ≤ outbuf.size →
      conv_loop (some t) inbuf (n : Int) ip op outbuf =
        Except.ok ⟨outbuf.size, fun j =>
          if op ≤ j ∧ j < op + n then t (inbuf.data (ip + (j - op))) else outbuf.data j⟩ := by
  induction n with
  | zero =>
    intro ip op outbuf _ _ _
    rw [conv_loop]
    have hd : (fun j => if op ≤ j ∧ j < op + 0 then t (inbuf.data (ip + (j - op)))
        else outbuf.data j) = outbuf.data := by
      funext j
      have : ¬ (op ≤ j ∧ j < op + 0) := by omega
      simp [this]
    rw [hd]
    simp
  | succ k ih =>
    intro ip op outbuf hk hi ho
    rw [conv_loop]
    have h0 : ((k + 1 : Nat) : Int) ≠ 0 := by omega
    have h1 : ¬ (inbuf.size ≤ ip ∨ outbuf.size ≤ op) := by omega
    have h2 : ¬ (((k + 1 : Nat) : Int) - 1 < INT_MIN) := by
      simp only [INT_MIN]; omega
    have h3 : ((k + 1 : Nat) : Int) - 1 = (k : Int) := by omega
    have h4 : ¬ ((k : Int) < INT_MIN) := by
      simp only [INT_MIN]; omega
    simp only [h0, h1, h2, if_false]
    rw [h3]
    rw [ih (ip + 1) (op + 1) (outbuf.write op (t (inbuf.data ip))) (by omega)
      (by omega) (by simp only [Buffer.write]; omega)]
    simp only [Buffer.write]
    congr 2
    funext j
    show (if op + 1 ≤ j ∧ j < op + 1 + k then t (inbuf.data (ip + 1 + (j - (op + 1))))
        else if j = op then t (inbuf.data ip) else outbuf.data j) =
      (if op ≤ j ∧ j < op + (k + 1) then t (inbuf.data (ip + (j - op))) else outbuf.data j)
    by_cases hj : j = op
    · subst hj
      simp
    · by_cases hlt : op + 1 ≤ j ∧ j < op + 1 + k
      · have hlt2 : op ≤ j ∧ j < op + (k + 1) := by omega
        have he : ip + 1 + (j - (op + 1)) = ip + (j - op) := by omega
        simp [hlt, hlt2, he]
      · have hlt2 : ¬ (op ≤ j ∧ j < op + (k + 1)) := by omega
        simp [hlt, hlt2, hj]

/-- Conversion to `int` keeps a value below `2 ^ 31`. -/
theorem to_int_small (n : Nat) (h : n < 2 ^ 31) : to_int n = (n : Int) := by
  unfold to_int
  have h1 : n % 2 ^ 32 = n := Nat.mod_eq_of_lt (by omega)
  rw [h1, if_pos h]

/-- The wrapping subtraction is the plain one when nothing wraps. -/
theorem size_sub_small (P : Platform) (x n : Nat) (hn : n ≤ x) (hx : x < 2 ^ P.size_bits) :
    size_sub P x (n : Int) = x - n := by
  unfold size_sub
  have h1 : ((x : Int) - (n : Int)) = ((x - n : Nat) : Int) := by omega
  rw [h1]
  have h2 : (((x - n : Nat) : Int) % 2 ^ P.size_bits) = ((x - n : Nat) : Int) := by
    apply Int.emod_eq_of_lt
    · omega
    · have : x - n < 2 ^ P.size_bits := by omega
      exact_mod_cast this
  rw [h2]
  simp

/-- On a table-backed context, when the smaller of the two counters is below
`2 ^ 31`, `ap_xlate_conv_buffer` returns `APR_SUCCESS`, maps the first
`min` bytes through the table, leaves the rest of the output region as it was
and lowers both counters by `min`. -/
theorem conv_buffer_table_small (P : Platform) (E : Engine) (convset : ap_xlate_t)
    (t : Fin 256 → Byte) (inbuf outbuf : Buffer) (il ol : Nat)
    (hich : convset.ich = ICONV_INVALID) (ht : convset.sbcs_table = some t)
    (hil : il ≤ inbuf.size) (hol : ol ≤ outbuf.size)
    (hilw : il < 2 ^ P.size_bits) (holw : ol < 2 ^ P.size_bits)
    (hsm : min il ol < 2 ^ 31) :
    ap_xlate_conv_buffer P E convset inbuf il outbuf ol =
      Except.ok ⟨APR_SUCCESS, il - min il ol, ol - min il ol,
        ⟨outbuf.size, fun j => if j < min il ol then t (inbuf.data j) else outbuf.data j⟩⟩ := by
  have hmi : min il ol ≤ il := by unfold min; split <;> omega
  have hmo : min il ol ≤ ol := by unfold min; split <;> omega
  unfold ap_xlate_conv_buffer
  simp only [hich, ne_eq, not_true_eq_false, if_false, ht]
  rw [to_int_small _ hsm]
  rw [conv_loop_count t inbuf (min il ol) 0 0 outbuf hsm (by omega) (by omega)]
  simp only [size_sub_small P il _ hmi hilw, size_sub_small P ol _ hmo holw]
  simp

/-- Under the same conditions the call does not depend on the input region
beyond the first `min` bytes: a region that agrees on those bytes gives the
same result. -/
theorem conv_buffer_table_small_reads (P : Platform) (E : Engine) (convset : ap_xlate_t)
    (t : Fin 256 → Byte) (inbuf inbuf2 outbuf : Buffer) (il ol : Nat)
    (hich : convset.ich = ICONV_INVALID) (ht : convset.sbcs_table = some t)
    (hil : il ≤ inbuf.size) (hil2 : il ≤ inbuf2.size) (hol : ol ≤ outbuf.size)
    (hilw : il < 2 ^ P.size_bits) (holw : ol < 2 ^ P.size_bits)
    (hsm : min il ol < 2 ^ 31)
    (hag : ∀ j, j < min il ol → inbuf2.data j = inbuf.data j) :
    ap_xlate_conv_buffer P E convset inbuf2 il outbuf ol =
      ap_xlate_conv_buffer P E convset inbuf il outbuf ol := by
  rw [conv_buffer_table_small P E convset t inbuf outbuf il ol hich ht hil hol hilw holw hsm,
    conv_buffer_table_small P E convset t inbuf2 outbuf il ol hich ht hil2 hol hilw holw hsm]
  congr 3
  funext j
  by_cases hj : j < min il ol
  · simp [hj, hag j hj]
  · simp [hj]

/-- Claim C1, evaluated where it fails: on an LP64 platform, a table-backed
context with the identity table, a 4 GiB input region filled with the byte 65
and a 4 GiB output region filled with zero, both counters `2 ^ 32`: the count
is truncated to `int` zero, the call returns `APR_SUCCESS` and the output
region is unchanged, so offset 0 holds 0 and not the mapped byte 65. -/
theorem conv_buffer_truncated_count_writes_nothing :
    ap_xlate_conv_buffer lp64 copy_engine identity_ctx
        ⟨2 ^ 32, fun _ => 65⟩ (2 ^ 32) ⟨2 ^ 32, fun _ => 0⟩ (2 ^ 32) =
      Except.ok ⟨APR_SUCCESS, 2 ^ 32, 2 ^ 32, ⟨2 ^ 32, fun _ => 0⟩⟩ := by
  unfold ap_xlate_conv_buffer
  have h : to_int (min (2 ^ 32) (2 ^ 32)) = 0 := by
    simp [to_int, min]
  simp only [identity_ctx, ne_eq, not_true_eq_false, if_false, h]
  rw [conv_loop]
  simp [size_sub, lp64]

/-- Claim C2, evaluated where it fails: on an LP64 platform and a table-backed
context, with input counter `2 ^ 32` and output counter `2 ^ 32 + 3`, the call
returns with both counters unchanged: nothing is reported consumed although
the smaller counter is `2 ^ 32`, and neither counter is zero. -/
theorem conv_buffer_truncated_count_keeps_counters :
    ∃ r, ap_xlate_conv_buffer lp64 copy_engine identity_ctx
        ⟨2 ^ 32, fun _ => 65⟩ (2 ^ 32) ⟨2 ^ 32 + 3, fun _ => 0⟩ (2 ^ 32 + 3) = Except.ok r ∧
      r.inbytes_left = 2 ^ 32 ∧ r.outbytes_left = 2 ^ 32 + 3 ∧
      r.inbytes_left ≠ 2 ^ 32 - min (2 ^ 32) (2 ^ 32 + 3) := by
  refine ⟨⟨APR_SUCCESS, 2 ^ 32, 2 ^ 32 + 3, ⟨2 ^ 32 + 3, fun _ => 0⟩⟩, ?_, rfl, rfl, ?_⟩
  · unfold ap_xlate_conv_buffer
    have h : to_int (min (2 ^ 32) (2 ^ 32 + 3)) = 0 := by
      simp [to_int, min]
    simp only [identity_ctx, ne_eq, not_true_eq_false, if_false, h]
    rw [conv_loop]
    simp [size_sub, lp64]
  · simp [min]

/-- Claim C3, evaluated where it fails: with signed plain `char` and the
identity table, `ap_xlate_conv_byte` gives -56 for the byte 200, while
`ap_xlate_conv_buffer` on the one-byte input 200 stores the byte 200. -/
theorem conv_byte_differs_from_conv_buffer :
    ap_xlate_conv_byte lp64 identity_ctx 200 = -56 ∧
    ∃ r, ap_xlate_conv_buffer lp64 copy_engine identity_ctx
        ⟨1, fun _ => 200⟩ 1 ⟨1, fun _ => 0⟩ 1 = Except.ok r ∧
      ((r.outbuf.data 0).val : Int) = 200 := by
  constructor
  · decide
  · refine ⟨_, conv_buffer_table_small lp64 copy_engine identity_ctx (fun i => i)
      ⟨1, fun _ => 200⟩ ⟨1, fun _ => 0⟩ 1 1 rfl rfl (by simp) (by simp)
      (by simp [lp64]) (by simp [lp64]) (by simp [min]), ?_⟩
    simp [min]
    rfl

/-- Claim C4, evaluated where it fails: with signed plain `char`, on a
table-backed context whose table maps the byte 255 to 255,
`ap_xlate_conv_byte` returns -1, the value it returns when there is no
table. -/
theorem conv_byte_sentinel_with_table :
    identity_ctx.sbcs_table.isSome = true ∧
    ap_xlate_conv_byte lp64 identity_ctx 255 = -1 := by
  constructor
  · rfl
  · decide

/-- With unsigned plain `char`, `ap_xlate_conv_byte` on a context with a table
gives the table entry as a value in `0 .. 255`. -/
theorem conv_byte_unsigned_char (P : Platform) (convset : ap_xlate_t) (t : Fin 256 → Byte)
    (b : Fin 256) (hc : P.char_signed = false) (ht : convset.sbcs_table = some t) :
    ap_xlate_conv_byte P convset b = ((t b).val : Int) := by
  simp [ap_xlate_conv_byte, ht, char_to_int32, hc]

/-- Without a table `ap_xlate_conv_byte` returns -1. -/
theorem conv_byte_no_table (P : Platform) (convset : ap_xlate_t) (b : Fin 256)
    (ht : convset.sbcs_table = none) : ap_xlate_conv_byte P convset b = -1 := by
  simp [ap_xlate_conv_byte, ht]

/-! ### Opening a context -/

/-- When the arena grants the 256 bytes of the table, `check_sbcs` on a
context without table returns, and the context it leaves has a table exactly
when the engine, called on the input bytes 0, 1, ..., 255 with both counters
at 256, reported no error and left both counters at zero; in that case the
table holds the 256 bytes the engine produced, the descriptor has been handed
to `iconv_close` and is set to `(iconv_t)-1`; in every other case the table
stays absent, the descriptor is unchanged and nothing is released. -/
theorem check_sbcs_table_iff (P : Platform) (E : Engine) (A : Allocs) (closed : List Int)
    (convset : ap_xlate_t) (halloc : A.table = true) (hnone : convset.sbcs_table = none) :
    ∃ c closed1, check_sbcs P E A closed convset = Except.ok (c, closed1) ∧
      (c.sbcs_table.isSome = true ↔
        ((E.iconv convset.ich ⟨256, fun i => Fin.ofNat i⟩ 256 ⟨256, A.junk⟩ 256).translated
            ≠ 2 ^ P.size_bits - 1 ∧
         (E.iconv convset.ich ⟨256, fun i => Fin.ofNat i⟩ 256 ⟨256, A.junk⟩ 256).inbytes_left
            = 0 ∧
         (E.iconv convset.ich ⟨256, fun i => Fin.ofNat i⟩ 256 ⟨256, A.junk⟩ 256).outbytes_left
            = 0)) ∧
      (c.sbcs_table.isSome = true →
        c.sbcs_table = some (fun i =>
          (E.iconv convset.ich ⟨256, fun i => Fin.ofNat i⟩ 256 ⟨256, A.junk⟩ 256).outbuf.data
            i.val) ∧
        c.ich = ICONV_INVALID ∧ closed1 = closed ++ [convset.ich]) ∧
      (c.sbcs_table.isSome = false →
        c.sbcs_table = none ∧ c.ich = convset.ich ∧ closed1 = closed) := by
  have hp : probe E A convset.ich =
      E.iconv convset.ich ⟨256, fun i => Fin.ofNat i⟩ 256 ⟨256, A.junk⟩ 256 := rfl
  rw [← hp]
  unfold check_sbcs
  by_cases hok : sbcs_ok P (probe E A convset.ich)
  · refine ⟨_, _, by simp only [hok, halloc, if_true]; rfl, ?_, ?_, ?_⟩
    · simpa [sbcs_ok, SIZE_MAX] using hok
    · intro _
      exact ⟨rfl, rfl, rfl⟩
    · intro h
      simp at h
  · refine ⟨_, _, by simp only [hok, if_false]; rfl, ?_, ?_, ?_⟩
    · simp only [hnone, Option.isSome_none]
      constructor
      · intro h
        exact absurd h (by simp)
      · intro h
        exact absurd h hok
    · intro h
      simp [hnone] at h
    · intro _
      exact ⟨hnone, rfl, rfl⟩

/-- Claim C6, evaluated where it fails: the engine `copy_engine`, called on
the input bytes 0, 1, ..., 255 with both counters at 256, reports no error and
leaves both counters at zero, and its output maps 65 to 65 and 200 to 200;
with the table granted `check_sbcs` stores that output as the table, but when
`ap_palloc` returns a null pointer `check_sbcs` copies into it: neither
`check_sbcs` nor `ap_xlate_open` returns, and the context is left in neither
form. -/
theorem check_sbcs_null_table_faults :
    ((copy_engine.iconv 7 ⟨256, fun i => Fin.ofNat i⟩ 256 ⟨256, fun _ => 0⟩ 256).translated
        ≠ 2 ^ lp64.size_bits - 1 ∧
     (copy_engine.iconv 7 ⟨256, fun i => Fin.ofNat i⟩ 256 ⟨256, fun _ => 0⟩ 256).inbytes_left
        = 0 ∧
     (copy_engine.iconv 7 ⟨256, fun i => Fin.ofNat i⟩ 256 ⟨256, fun _ => 0⟩ 256).outbytes_left
        = 0) ∧
    (∃ c closed1,
      check_sbcs lp64 copy_engine good_allocs [] ⟨0, some "X", some "X", none, 7⟩ =
        Except.ok (c, closed1) ∧
      c.sbcs_table.map (fun t => (t 65, t 200)) = some (65, 200) ∧
      c.ich = ICONV_INVALID ∧ closed1 = [7]) ∧
    check_sbcs lp64 copy_engine starved_allocs [] ⟨0, some "X", some "X", none, 7⟩ =
      Except.error Fault.null_deref ∧
    ap_xlate_open lp64 copy_engine starved_allocs empty_world (some "X") (some "X") 0 =
      Except.error Fault.null_deref :=
  ⟨⟨by decide, rfl, rfl⟩, ⟨_, _, rfl, rfl, rfl, rfl⟩, rfl, rfl⟩

/-- Claim C5: a context that `ap_xlate_open` returns comes with status
`APR_SUCCESS` and has exactly one of the two: either its descriptor is not
`(iconv_t)-1` and it has no table (and the open released nothing), or its
descriptor is `(iconv_t)-1` and it has a table. -/
theorem open_exactly_one (P : Platform) (E : Engine) (A : Allocs) (w : World)
    (topage frompage : Option String) (pool : Nat) (st a : Nat) (w1 : World)
    (h : ap_xlate_open P E A w topage frompage pool = Except.ok (st, some a, w1)) :
    st = APR_SUCCESS ∧
    ∃ c, w1.heap a = some c ∧
      ((c.ich ≠ ICONV_INVALID ∧ c.sbcs_table = none ∧ w1.closed = w.closed) ∨
       (c.ich = ICONV_INVALID ∧ c.sbcs_table.isSome = true)) := by
  unfold ap_xlate_open at h
  dsimp only at h
  generalize (match topage with | some t => t | none => get_default_codepage P) = tp at h
  generalize (match frompage with | some f => f | none => get_default_codepage P) = fp at h
  cases hnew : A.new with
  | none => simp [hnew] at h
  | some addr =>
    cases htp : A.topage <;> cases hfp : A.frompage <;>
      simp only [hnew, htp, hfp] at h <;> try (simp at h; done)
    by_cases hvalid : (E.iconv_open tp fp).1 = ICONV_INVALID
    · simp [hvalid] at h
    · simp only [if_true, if_false, hvalid, reduceCtorEq, or_self, not_false_eq_true] at h
      cases hcs : check_sbcs P E A w.closed
          { pool := pool, frompage := some fp, topage := some tp, sbcs_table := none,
            ich := (E.iconv_open tp fp).1 } with
      | error f =>
        rw [hcs] at h
        simp at h
      | ok r =>
        obtain ⟨c, closed⟩ := r
        rw [hcs] at h
        simp only [if_true, Except.ok.injEq, Prod.mk.injEq, Option.some.injEq] at h
        obtain ⟨hst, ha, hw⟩ := h
        subst hw
        subst ha
        refine ⟨hst.symm, c, by simp [ap_register_cleanup, World.store], ?_⟩
        unfold check_sbcs at hcs
        dsimp only at hcs
        split at hcs
        · split at hcs
          · simp only [Except.ok.injEq, Prod.mk.injEq] at hcs
            obtain ⟨hc, _⟩ := hcs
            right
            subst hc
            exact ⟨rfl, rfl⟩
          · simp at hcs
        · simp only [Except.ok.injEq, Prod.mk.injEq] at hcs
          obtain ⟨hc, hcl⟩ := hcs
          left
          subst hc
          subst hcl
          exact ⟨hvalid, rfl, by simp [ap_register_cleanup, World.store]⟩

/-- Witness for claim C5: opening the pair ("X", "X") with `copy_engine` in
`empty_world` returns the context at address 1. -/
theorem open_exactly_one_witness :
    ap_xlate_open lp64 copy_engine good_allocs empty_world (some "X") (some "X") 0 =
        Except.ok (0, some 1, opened_world) ∧
    (0 = APR_SUCCESS ∧
      ∃ c, opened_world.heap 1 = some c ∧
        ((c.ich ≠ ICONV_INVALID ∧ c.sbcs_table = none ∧
            opened_world.closed = empty_world.closed) ∨
         (c.ich = ICONV_INVALID ∧ c.sbcs_table.isSome = true))) :=
  have h : ap_xlate_open lp64 copy_engine good_allocs empty_world (some "X") (some "X") 0 =
      Except.ok (0, some 1, opened_world) := by rfl
  ⟨h, open_exactly_one lp64 copy_engine good_allocs empty_world (some "X") (some "X") 0 0 1
    opened_world h⟩

/-! ### Closing a context -/

/-- Claim C7, evaluated where it fails: a context opened with an engine that
is not single-byte keeps descriptor 7; the first `ap_xlate_close` hands 7 to
`iconv_close` and returns `APR_SUCCESS`; the second `ap_xlate_close` also
returns `APR_SUCCESS` and hands 7 to `iconv_close` again. -/
theorem close_twice_releases_twice :
    ∃ w1 w2 w3,
      ap_xlate_open lp64 wide_engine good_allocs empty_world (some "UTF-16") (some "UTF-8") 0 =
        Except.ok (APR_SUCCESS, some 1, w1) ∧
      ap_xlate_close wide_engine w1 1 = Except.ok (APR_SUCCESS, w2) ∧
      ap_xlate_close wide_engine w2 1 = Except.ok (APR_SUCCESS, w3) ∧
      w1.closed = [] ∧ w2.closed = [7] ∧ w3.closed = [7, 7] :=
  ⟨_, _, _, rfl, rfl, rfl, rfl, rfl, rfl⟩

end Xlate

namespace ThreadMutex

/-- Running the callbacks of a list that has no entry for `m` does not call
`DeleteCriticalSection` on `m`. -/
theorem run_registered_count (m : Nat) :
    ∀ (l : List PoolCleanupEntry) (w : MutexWorld), (∀ c ∈ l, c.data ≠ m) →
      (run_registered l w).deleted_cs.count m = w.deleted_cs.count m := by
  intro l
  induction l with
  | nil => intro w _; rfl
  | cons c cs ih =>
    intro w h
    have hc : c.data ≠ m := h c (List.mem_cons_self _ _)
    have hcs : ∀ d ∈ cs, d.data ≠ m := fun d hd => h d (List.mem_cons_of_mem _ hd)
    simp only [run_registered]
    rw [ih _ hcs]
    cases hfn : c.plain_cleanup with
    | thread_mutex_cleanup =>
      have h0 : List.count m [c.data] = 0 :=
        List.count_eq_zero_of_not_mem (by
          simp only [List.mem_singleton]
          exact fun e => hc e.symm)
      simp [run_fn, thread_mutex_cleanup, List.count_append, h0]
    | apr_pool_cleanup_null => simp [run_fn]

/-- What `apr_thread_mutex_destroy` leaves of a registry list never holds an
entry that was not there. -/
theorem mem_of_mem_remove_first (d : Nat) (fn : PoolCleanupFn) (c : PoolCleanupEntry) :
    ∀ (l : List PoolCleanupEntry), c ∈ remove_first d fn l → c ∈ l := by
  intro l
  induction l with
  | nil => intro h; simp [remove_first] at h
  | cons e es ih =>
    intro h
    simp only [remove_first] at h
    split at h
    · exact List.mem_cons_of_mem _ h
    · rcases List.mem_cons.mp h with h1 | h1
      · exact h1 ▸ List.mem_cons_self _ _
      · exact List.mem_cons_of_mem _ (ih h1)

/-- Removal of the cleanup of another mutex keeps the entries for `m`. -/
theorem filter_remove_first_other (d m : Nat) (fn : PoolCleanupFn) (hd : d ≠ m) :
    ∀ (l : List PoolCleanupEntry),
      (remove_first d fn l).filter (fun c => decide (c.data = m)) =
        l.filter (fun c => decide (c.data = m)) := by
  intro l
  induction l with
  | nil => rfl
  | cons e es ih =>
    simp only [remove_first]
    split
    · rename_i he
      have hne : ¬ e.data = m := fun h => hd (he.1 ▸ h)
      simp [List.filter_cons, hne]
    · simp only [List.filter_cons, ih]

/-- Removal of the cleanup of `m` from a list that holds exactly one entry for
`m`, the one `apr_thread_mutex_create` registers, leaves no entry for `m`. -/
theorem remove_first_registered_once (m : Nat) :
    ∀ (l : List PoolCleanupEntry),
      l.filter (fun c => decide (c.data = m)) =
        [⟨m, PoolCleanupFn.thread_mutex_cleanup, PoolCleanupFn.apr_pool_cleanup_null⟩] →
      ∀ c ∈ remove_first m PoolCleanupFn.thread_mutex_cleanup l, c.data ≠ m := by
  intro l
  induction l with
  | nil => intro h; simp at h
  | cons e es ih =>
    intro h c hc
    by_cases he : e.data = m
    · simp only [List.filter_cons, he, decide_True, if_true, List.cons.injEq] at h
      obtain ⟨h1, h2⟩ := h
      have hfn : e.plain_cleanup = PoolCleanupFn.thread_mutex_cleanup := by rw [h1]
      simp only [remove_first, he, hfn, and_self, if_true] at hc
      intro hcm
      have : c ∈ es.filter (fun c => decide (c.data = m)) :=
        List.mem_filter.mpr ⟨hc, by simp [hcm]⟩
      rw [h2] at this
      simp at this
    · have h2 : es.filter (fun c => decide (c.data = m)) =
          [⟨m, PoolCleanupFn.thread_mutex_cleanup, PoolCleanupFn.apr_pool_cleanup_null⟩] := by
        simpa [List.filter_cons, he] using h
      simp only [remove_first, he, false_and, if_false] at hc
      rcases List.mem_cons.mp hc with h1 | h1
      · rw [h1]; exact he
      · exact ih h2 c h1

/-- A call that spares `m` keeps the mutex at `m` registered once and does not
call `DeleteCriticalSection` on `m`. -/
theorem run_keeps_registered_once (pool m : Nat) (c : Call) (w w1 : MutexWorld)
    (hs : c.spares m) (hr : c.run w = Except.ok w1) (hi : registered_once w pool m) :
    registered_once w1 pool m ∧ w1.deleted_cs.count m = w.deleted_cs.count m := by
  obtain ⟨⟨mx, hmx, hpool⟩, hf⟩ := hi
  cases c with
  | create flags p alloc =>
    cases alloc with
    | none => simp [Call.run, apr_thread_mutex_create] at hr
    | some a =>
      have ha : a ≠ m := fun h => hs (by rw [h])
      have ha2 : m ≠ a := fun h => ha h.symm
      simp only [Call.run, apr_thread_mutex_create, Except.ok.injEq] at hr
      subst hr
      refine ⟨⟨⟨mx, by simp [apr_pool_cleanup_register, ha2, hmx], hpool⟩, ?_⟩, rfl⟩
      by_cases hp : pool = p
      · simp [apr_pool_cleanup_register, hp, List.filter_cons, ha, ← hf]
      · simp [apr_pool_cleanup_register, hp, hf]
  | trylock WIN_NT os_level mutex tid =>
    simp only [Call.run, apr_thread_mutex_trylock] at hr
    by_cases hl : os_level < WIN_NT
    · simp only [hl, if_true, Except.ok.injEq] at hr
      subst hr
      exact ⟨⟨⟨mx, hmx, hpool⟩, hf⟩, rfl⟩
    · simp only [hl, if_false] at hr
      cases hh : w.heap mutex with
      | none => simp [hh] at hr
      | some mx1 =>
        simp only [hh] at hr
        have hw1 : w1 =
            ⟨fun a =>
              if a = mutex then some ⟨mx1.pool, (TryEnterCriticalSection mx1.section_ tid).2⟩
              else w.heap a, w.cleanups, w.initialized_cs, w.deleted_cs⟩ := by
          cases ht : (TryEnterCriticalSection mx1.section_ tid).1 <;>
            simp only [ht, if_true, if_false, Bool.false_eq_true, Except.ok.injEq] at hr <;>
            exact hr.symm
        subst hw1
        refine ⟨⟨?_, hf⟩, rfl⟩
        by_cases hm : m = mutex
        · subst hm
          rw [hmx] at hh
          cases hh
          exact ⟨⟨mx.pool, (TryEnterCriticalSection mx.section_ tid).2⟩, by simp, hpool⟩
        · exact ⟨mx, by simp [hm, hmx], hpool⟩
  | destroy mutex =>
    have hd : mutex ≠ m := hs
    simp only [Call.run, apr_thread_mutex_destroy] at hr
    cases hh : w.heap mutex with
    | none => simp [hh] at hr
    | some mx1 =>
      simp only [hh, Except.ok.injEq] at hr
      subst hr
      have h0 : List.count m [mutex] = 0 :=
        List.count_eq_zero_of_not_mem (by
          simp only [List.mem_singleton]
          exact fun e => hd e.symm)
      refine ⟨⟨⟨mx, hmx, hpool⟩, ?_⟩, ?_⟩
      · by_cases hp : pool = mx1.pool
        · simp [apr_pool_cleanup_run, run_fn, thread_mutex_cleanup, apr_pool_cleanup_kill, hp,
            filter_remove_first_other mutex m _ hd, ← hf]
        · simp [apr_pool_cleanup_run, run_fn, thread_mutex_cleanup, apr_pool_cleanup_kill, hp, hf]
      · simp [apr_pool_cleanup_run, run_fn, thread_mutex_cleanup, apr_pool_cleanup_kill,
          List.count_append, h0]

/-- A call that spares `m` registers no cleanup for `m` and does not call
`DeleteCriticalSection` on `m`. -/
theorem run_keeps_unregistered (pool m : Nat) (c : Call) (w w1 : MutexWorld)
    (hs : c.spares m) (hr : c.run w = Except.ok w1) (hi : unregistered w pool m) :
    unregistered w1 pool m ∧ w1.deleted_cs.count m = w.deleted_cs.count m := by
  cases c with
  | create flags p alloc =>
    cases alloc with
    | none => simp [Call.run, apr_thread_mutex_create] at hr
    | some a =>
      have ha : a ≠ m := fun h => hs (by rw [h])
      simp only [Call.run, apr_thread_mutex_create, Except.ok.injEq] at hr
      subst hr
      refine ⟨?_, rfl⟩
      intro c hc
      by_cases hp : pool = p
      · simp only [apr_pool_cleanup_register, hp, if_true, List.mem_cons] at hc
        rcases hc with h1 | h1
        · rw [h1]; exact ha
        · exact hi c (hp ▸ h1)
      · simp only [apr_pool_cleanup_register, hp, if_false] at hc
        exact hi c hc
  | trylock WIN_NT os_level mutex tid =>
    simp only [Call.run, apr_thread_mutex_trylock] at hr
    by_cases hl : os_level < WIN_NT
    · simp only [hl, if_true, Except.ok.injEq] at hr
      subst hr
      exact ⟨hi, rfl⟩
    · simp only [hl, if_false] at hr
      cases hh : w.heap mutex with
      | none => simp [hh] at hr
      | some mx1 =>
        simp only [hh] at hr
        have hw1 : w1 =
            ⟨fun a =>
              if a = mutex then some ⟨mx1.pool, (TryEnterCriticalSection mx1.section_ tid).2⟩
              else w.heap a, w.cleanups, w.initialized_cs, w.deleted_cs⟩ := by
          cases ht : (TryEnterCriticalSection mx1.section_ tid).1 <;>
            simp only [ht, if_true, if_false, Bool.false_eq_true, Except.ok.injEq] at hr <;>
            exact hr.symm
        subst hw1
        exact ⟨hi, rfl⟩
  | destroy mutex =>
    have hd : mutex ≠ m := hs
    simp only [Call.run, apr_thread_mutex_destroy] at hr
    cases hh : w.heap mutex with
    | none => simp [hh] at hr
    | some mx1 =>
      simp only [hh, Except.ok.injEq] at hr
      subst hr
      have h0 : List.count m [mutex] = 0 :=
        List.count_eq_zero_of_not_mem (by
          simp only [List.mem_singleton]
          exact fun e => hd e.symm)
      refine ⟨?_, ?_⟩
      · intro c hc
        by_cases hp : pool = mx1.pool
        · simp only [apr_pool_cleanup_run, run_fn, thread_mutex_cleanup, apr_pool_cleanup_kill,
            hp, if_true] at hc
          exact hi c (hp ▸ mem_of_mem_remove_first _ _ _ _ hc)
        · simp only [apr_pool_cleanup_run, run_fn, thread_mutex_cleanup, apr_pool_cleanup_kill,
            hp, if_false] at hc
          exact hi c hc
      · simp [apr_pool_cleanup_run, run_fn, thread_mutex_cleanup, apr_pool_cleanup_kill,
          List.count_append, h0]

/-- A sequence of calls that spare `m` keeps the mutex at `m` registered once
and does not call `DeleteCriticalSection` on `m`. -/
theorem run_calls_keeps_registered_once (pool m : Nat) :
    ∀ (cs : List Call) (w w1 : MutexWorld), (∀ c ∈ cs, c.spares m) →
      run_calls cs w = Except.ok w1 → registered_once w pool m →
      registered_once w1 pool m ∧ w1.deleted_cs.count m = w.deleted_cs.count m := by
  intro cs
  induction cs with
  | nil =>
    intro w w1 _ hr hi
    simp only [run_calls, Except.ok.injEq] at hr
    subst hr
    exact ⟨hi, rfl⟩
  | cons c cs ih =>
    intro w w1 hs hr hi
    simp only [run_calls] at hr
    cases hc : c.run w with
    | error f => simp [hc] at hr
    | ok w2 =>
      simp only [hc] at hr
      have h1 := run_keeps_registered_once pool m c w w2 (hs c (List.mem_cons_self _ _)) hc hi
      have h2 := ih w2 w1 (fun d hd => hs d (List.mem_cons_of_mem _ hd)) hr h1.1
      exact ⟨h2.1, h2.2.trans h1.2⟩

/-- A sequence of calls that spare `m` registers no cleanup for `m` and does
not call `DeleteCriticalSection` on `m`. -/
theorem run_calls_keeps_unregistered (pool m : Nat) :
    ∀ (cs : List Call) (w w1 : MutexWorld), (∀ c ∈ cs, c.spares m) →
      run_calls cs w = Except.ok w1 → unregistered w pool m →
      unregistered w1 pool m ∧ w1.deleted_cs.count m = w.deleted_cs.count m := by
  intro cs
  induction cs with
  | nil =>
    intro w w1 _ hr hi
    simp only [run_calls, Except.ok.injEq] at hr
    subst hr
    exact ⟨hi, rfl⟩
  | cons c cs ih =>
    intro w w1 hs hr hi
    simp only [run_calls] at hr
    cases hc : c.run w with
    | error f => simp [hc] at hr
    | ok w2 =>
      simp only [hc] at hr
      have h1 := run_keeps_unregistered pool m c w w2 (hs c (List.mem_cons_self _ _)) hc hi
      have h2 := ih w2 w1 (fun d hd => hs d (List.mem_cons_of_mem _ hd)) hr h1.1
      exact ⟨h2.1, h2.2.trans h1.2⟩

/-- Claim C8 as amended: when the registry of the pool holds no cleanup for
the address that `apr_palloc` returns, `apr_thread_mutex_create` returns
`APR_SUCCESS`, and after any calls that are neither a create at that address
nor a destroy of this mutex, `apr_thread_mutex_destroy` returns
`APR_SUCCESS`, makes the one call of `DeleteCriticalSection` on the mutex
since its creation and leaves no cleanup for it in the arena; after any
further such calls the arena still holds no cleanup for it and the arena
teardown does not call `DeleteCriticalSection` on it again. -/
theorem destroy_then_teardown_deletes_once (w : MutexWorld) (flags pool m : Nat)
    (hreg : ∀ c ∈ w.cleanups pool, c.data ≠ m) :
    ∃ w1,
      apr_thread_mutex_create w flags pool (some m) =
        Except.ok (apr_status_t.APR_SUCCESS, m, w1) ∧
      ∀ (before : List Call) (wa : MutexWorld),
        (∀ c ∈ before, c.spares m) → run_calls before w1 = Except.ok wa →
        ∃ w2,
          apr_thread_mutex_destroy wa m = Except.ok (apr_status_t.APR_SUCCESS, w2) ∧
          wa.deleted_cs.count m = w.deleted_cs.count m ∧
          w2.deleted_cs = wa.deleted_cs ++ [m] ∧
          (∀ c ∈ w2.cleanups pool, c.data ≠ m) ∧
          ∀ (after : List Call) (wb : MutexWorld),
            (∀ c ∈ after, c.spares m) → run_calls after w2 = Except.ok wb →
            (∀ c ∈ wb.cleanups pool, c.data ≠ m) ∧
            (apr_pool_destroy wb pool).deleted_cs.count m = w2.deleted_cs.count m := by
  have hnil : (w.cleanups pool).filter (fun c => decide (c.data = m)) = [] := by
    rw [List.filter_eq_nil_iff]
    intro c hc
    simpa using hreg c hc
  refine ⟨apr_pool_cleanup_register
      { w with
        heap := fun a => if a = m then some ⟨pool, ⟨none, 0⟩⟩ else w.heap a
        initialized_cs := w.initialized_cs ++ [m] }
      pool m PoolCleanupFn.thread_mutex_cleanup PoolCleanupFn.apr_pool_cleanup_null, rfl, ?_⟩
  intro before wa hbefore hrun
  have hinit : registered_once (apr_pool_cleanup_register
      { w with
        heap := fun a => if a = m then some ⟨pool, ⟨none, 0⟩⟩ else w.heap a
        initialized_cs := w.initialized_cs ++ [m] }
      pool m PoolCleanupFn.thread_mutex_cleanup PoolCleanupFn.apr_pool_cleanup_null) pool m := by
    refine ⟨⟨⟨pool, ⟨none, 0⟩⟩, by simp [apr_pool_cleanup_register], rfl⟩, ?_⟩
    simp [apr_pool_cleanup_register, List.filter_cons, hnil]
  obtain ⟨⟨⟨mx, hmx, hpool⟩, hf⟩, hcount⟩ :=
    run_calls_keeps_registered_once pool m before _ wa hbefore hrun hinit
  have hun : unregistered
      (apr_pool_cleanup_run wa pool m PoolCleanupFn.thread_mutex_cleanup).2 pool m := by
    intro c hc
    simp only [apr_pool_cleanup_run, run_fn, thread_mutex_cleanup, apr_pool_cleanup_kill,
      if_true] at hc
    exact remove_first_registered_once m _ hf c hc
  refine ⟨(apr_pool_cleanup_run wa pool m PoolCleanupFn.thread_mutex_cleanup).2, ?_, hcount,
    rfl, hun, ?_⟩
  · simp only [apr_thread_mutex_destroy, hmx, hpool]
    rfl
  · intro after wb hafter hrun2
    obtain ⟨hun2, hcount2⟩ := run_calls_keeps_unregistered pool m after _ wb hafter hrun2 hun
    refine ⟨hun2, ?_⟩
    simp only [apr_pool_destroy]
    rw [run_registered_count m _ _ hun2]
    exact hcount2

/-- Witness for claim C8 as amended: the first mutex of an empty state, at
address 1 in pool 0. -/
theorem destroy_then_teardown_deletes_once_witness :
    (∀ c ∈ fresh_world.cleanups 0, c.data ≠ 1) ∧
    ∃ w1,
      apr_thread_mutex_create fresh_world 0 0 (some 1) =
        Except.ok (apr_status_t.APR_SUCCESS, 1, w1) ∧
      ∀ (before : List Call) (wa : MutexWorld),
        (∀ c ∈ before, c.spares 1) → run_calls before w1 = Except.ok wa →
        ∃ w2,
          apr_thread_mutex_destroy wa 1 = Except.ok (apr_status_t.APR_SUCCESS, w2) ∧
          wa.deleted_cs.count 1 = fresh_world.deleted_cs.count 1 ∧
          w2.deleted_cs = wa.deleted_cs ++ [1] ∧
          (∀ c ∈ w2.cleanups 0, c.data ≠ 1) ∧
          ∀ (after : List Call) (wb : MutexWorld),
            (∀ c ∈ after, c.spares 1) → run_calls after w2 = Except.ok wb →
            (∀ c ∈ wb.cleanups 0, c.data ≠ 1) ∧
            (apr_pool_destroy wb 0).deleted_cs.count 1 = w2.deleted_cs.count 1 :=
  ⟨by simp [fresh_world],
    destroy_then_teardown_deletes_once fresh_world 0 0 1 (by simp [fresh_world])⟩

/-- The calls in between are not idle: with a second mutex created at address
2 and thread 6 taking the first one before the destroy, and the second mutex
destroyed after it, the teardown of pool 0 leaves the log of
`DeleteCriticalSection` calls at the first mutex once and the second once. -/
theorem destroy_then_teardown_trace :
    ∃ w1 wa w2 wb,
      apr_thread_mutex_create fresh_world 0 0 (some 1) =
        Except.ok (apr_status_t.APR_SUCCESS, 1, w1) ∧
      run_calls [Call.create 0 0 (some 2), Call.trylock 30 30 1 6] w1 = Except.ok wa ∧
      apr_thread_mutex_destroy wa 1 = Except.ok (apr_status_t.APR_SUCCESS, w2) ∧
      run_calls [Call.destroy 2] w2 = Except.ok wb ∧
      (apr_pool_destroy wb 0).deleted_cs = [1, 2] :=
  ⟨_, _, _, _, rfl, rfl, rfl, rfl, rfl⟩

/-- Claim C8 fails as stated: for the mutex created at address 1 in an empty
state, `apr_thread_mutex_destroy` followed by a second
`apr_thread_mutex_destroy` calls `DeleteCriticalSection` on it twice, and both
calls return `APR_SUCCESS`; and in a state whose registry already holds a
cleanup for address 1, create, destroy and the arena teardown call
`DeleteCriticalSection` on it twice as well. -/
theorem destroy_twice_deletes_twice :
    (∃ w1 w2 w3,
      apr_thread_mutex_create fresh_world 0 0 (some 1) =
        Except.ok (apr_status_t.APR_SUCCESS, 1, w1) ∧
      apr_thread_mutex_destroy w1 1 = Except.ok (apr_status_t.APR_SUCCESS, w2) ∧
      apr_thread_mutex_destroy w2 1 = Except.ok (apr_status_t.APR_SUCCESS, w3) ∧
      w2.deleted_cs = [1] ∧ w3.deleted_cs = [1, 1] ∧ w3.deleted_cs.count 1 = 2) ∧
    (∃ w1 w2,
      apr_thread_mutex_create stale_world 0 0 (some 1) =
        Except.ok (apr_status_t.APR_SUCCESS, 1, w1) ∧
      apr_thread_mutex_destroy w1 1 = Except.ok (apr_status_t.APR_SUCCESS, w2) ∧
      w2.deleted_cs = [1] ∧ (apr_pool_destroy w2 0).deleted_cs = [1, 1]) :=
  ⟨⟨_, _, _, rfl, rfl, rfl, rfl, rfl, rfl⟩, ⟨_, _, rfl, rfl, rfl, rfl⟩⟩

/-- Claim C9: on a mutex in memory, `apr_thread_mutex_trylock` returns, and
returns `APR_ENOTIMPL` exactly when the platform level is below `APR_WIN_NT`,
in which case the state is unchanged; otherwise it returns `APR_SUCCESS`
exactly when `TryEnterCriticalSection` enters, and then the caller is the
owner, and `APR_EBUSY` exactly when it does not, and then the mutex is as it
was. -/
theorem trylock_status (WIN_NT os_level : Nat) (w : MutexWorld) (mutex tid : Nat)
    (mx : apr_thread_mutex_t) (hm : w.heap mutex = some mx) :
    ∃ st w1, apr_thread_mutex_trylock WIN_NT os_level w mutex tid = Except.ok (st, w1) ∧
      (st = apr_status_t.APR_ENOTIMPL ↔ os_level < WIN_NT) ∧
      (os_level < WIN_NT → w1 = w) ∧
      (¬ os_level < WIN_NT →
        (st = apr_status_t.APR_SUCCESS ↔ (TryEnterCriticalSection mx.section_ tid).1 = true) ∧
        (st = apr_status_t.APR_EBUSY ↔ (TryEnterCriticalSection mx.section_ tid).1 = false) ∧
        (st = apr_status_t.APR_SUCCESS →
          ∃ mx1, w1.heap mutex = some mx1 ∧ mx1.section_.owner = some tid) ∧
        (st = apr_status_t.APR_EBUSY → w1.heap mutex = some mx)) := by
  by_cases hlvl : os_level < WIN_NT
  · refine ⟨apr_status_t.APR_ENOTIMPL, w, ?_, ?_, fun _ => rfl, fun h => absurd hlvl h⟩
    · simp [apr_thread_mutex_trylock, hlvl]
    · exact ⟨fun _ => hlvl, fun _ => rfl⟩
  · cases htry : (TryEnterCriticalSection mx.section_ tid).1 with
    | true =>
      refine ⟨apr_status_t.APR_SUCCESS,
        { w with heap := fun a =>
            if a = mutex then
              some { mx with section_ := (TryEnterCriticalSection mx.section_ tid).2 }
            else w.heap a }, ?_, ?_, fun h => absurd h hlvl, fun _ => ⟨?_, ?_, ?_, ?_⟩⟩
      · simp [apr_thread_mutex_trylock, hlvl, hm, htry]
      · exact ⟨fun h => (by cases h), fun h => absurd h hlvl⟩
      · simp
      · simp
      · intro _
        refine ⟨{ mx with section_ := (TryEnterCriticalSection mx.section_ tid).2 },
          by simp, ?_⟩
        unfold TryEnterCriticalSection at htry ⊢
        cases ho : mx.section_.owner with
        | none => simp
        | some o =>
          by_cases hot : o = tid
          · simp [hot]
          · simp [ho, hot] at htry
      · intro h
        cases h
    | false =>
      refine ⟨apr_status_t.APR_EBUSY,
        { w with heap := fun a =>
            if a = mutex then
              some { mx with section_ := (TryEnterCriticalSection mx.section_ tid).2 }
            else w.heap a }, ?_, ?_, fun h => absurd h hlvl, fun _ => ⟨?_, ?_, ?_, ?_⟩⟩
      · simp [apr_thread_mutex_trylock, hlvl, hm, htry]
      · exact ⟨fun h => (by cases h), fun h => absurd h hlvl⟩
      · simp
      · simp
      · intro h
        cases h
      · intro _
        have hcs : (TryEnterCriticalSection mx.section_ tid).2 = mx.section_ := by
          unfold TryEnterCriticalSection at htry ⊢
          cases ho : mx.section_.owner with
          | none => simp [ho] at htry
          | some o =>
            by_cases hot : o = tid
            · simp [ho, hot] at htry
            · simp [hot]
        simp [hcs]

/-- Witness for claim C9: thread 6 tries the mutex of `held_world`, which
thread 5 holds, at platform level 30 with `APR_WIN_NT` at 30. -/
theorem trylock_status_witness :
    held_world.heap 1 = some ⟨0, ⟨some 5, 1⟩⟩ ∧
    ∃ st w1, apr_thread_mutex_trylock 30 30 held_world 1 6 = Except.ok (st, w1) ∧
      (st = apr_status_t.APR_ENOTIMPL ↔ 30 < 30) ∧
      (30 < 30 → w1 = held_world) ∧
      (¬ 30 < 30 →
        (st = apr_status_t.APR_SUCCESS ↔
          (TryEnterCriticalSection (⟨0, ⟨some 5, 1⟩⟩ : apr_thread_mutex_t).section_ 6).1 = true) ∧
        (st = apr_status_t.APR_EBUSY ↔
          (TryEnterCriticalSection (⟨0, ⟨some 5, 1⟩⟩ : apr_thread_mutex_t).section_ 6).1 = false) ∧
        (st = apr_status_t.APR_SUCCESS →
          ∃ mx1, w1.heap 1 = some mx1 ∧ mx1.section_.owner = some 6) ∧
        (st = apr_status_t.APR_EBUSY → w1.heap 1 = some ⟨0, ⟨some 5, 1⟩⟩)) :=
  ⟨rfl, trylock_status 30 30 held_world 1 6 ⟨0, ⟨some 5, 1⟩⟩ rfl⟩

/-- Claim C10, evaluated where it fails: when `apr_palloc` returns a null
pointer, `apr_thread_mutex_create` stores through it; it does not return
`APR_ENOMEM`, whatever the state, the flags and the pool. -/
theorem create_null_alloc_faults (w : MutexWorld) (flags pool : Nat) :
    apr_thread_mutex_create w flags pool none = Except.error MutexFault.null_deref := rfl

/-- When `apr_palloc` returns an address, `apr_thread_mutex_create` returns
`APR_SUCCESS` with the critical section at that address initialised and free,
its cleanup at the head of the pool's registry, and the same result for
every value of `flags`. -/
theorem create_succeeds (w : MutexWorld) (flags flags2 pool m : Nat) :
    ∃ w1, apr_thread_mutex_create w flags pool (some m) =
        Except.ok (apr_status_t.APR_SUCCESS, m, w1) ∧
      apr_thread_mutex_create w flags2 pool (some m) =
        Except.ok (apr_status_t.APR_SUCCESS, m, w1) ∧
      w1.heap m = some ⟨pool, ⟨none, 0⟩⟩ ∧
      w1.initialized_cs = w.initialized_cs ++ [m] ∧
      w1.cleanups pool =
        ⟨m, PoolCleanupFn.thread_mutex_cleanup, PoolCleanupFn.apr_pool_cleanup_null⟩ :: w.cleanups pool :=
  ⟨_, rfl, rfl, by simp [apr_pool_cleanup_register], rfl,
    by simp [apr_pool_cleanup_register]⟩

end ThreadMutex
